import Mathlib

/-!
Shallow embedding of generate-brightness-lut.py: a command-line tool that
samples one cycle of a sine wave into an integer lookup table and renders it
either as a bare line of comma-separated values or as a C++ array
declaration.  Text is modelled as List Char; the floating-point sine
computation is modelled over the real numbers; the process outcome (stdout
text versus a raised ValueError with non-zero exit) is modelled as
Except String (List Char).
-/

/-- Decimal digit character for a value below ten, as produced by str(). -/
def digitToChar (d : ℕ) : Char := Char.ofNat (48 + d)

/-- Numeric value of a decimal digit character. -/
def charToDigit (c : Char) : ℕ := c.toNat - 48

/-- Fueled most-significant-first decimal rendering of a natural number,
mirroring str() on a non-negative int.  The fuel argument only serves
termination; natChars supplies enough for the digits to be complete. -/
def natCharsAux : ℕ → ℕ → List Char
  | 0, _ => []
  | fuel + 1, n =>
    if n < 10 then [digitToChar n]
    else natCharsAux fuel (n / 10) ++ [digitToChar (n % 10)]

/-- Decimal rendering of a natural number. -/
def natChars (n : ℕ) : List Char := natCharsAux (n + 1) n

/-- Decimal rendering of an integer, mirroring str() on a Python int:
a minus sign followed by the digits when negative. -/
def intChars (v : ℤ) : List Char :=
  if v < 0 then '-' :: natChars (-v).toNat else natChars v.toNat

/-- Separator printed between values: a comma and a space. -/
def sepCS : List Char := [',', ' ']

/-- Join pieces with a separator between consecutive pieces, as the output
loops do with their `if index != 0: print(sep)` pattern. -/
def joinSep (sep : List Char) : List (List Char) → List Char
  | [] => []
  | [p] => p
  | p :: q :: ps => p ++ sep ++ joinSep sep (q :: ps)

/-- Split a character list on every occurrence of the two-character
separator a,b, scanning left to right, as str.split does on a two-character
separator string. -/
def splitOnPair (a b : Char) : List Char → List (List Char)
  | [] => [[]]
  | [c] => [[c]]
  | c :: d :: rest =>
    if c = a ∧ d = b then [] :: splitOnPair a b rest
    else
      match splitOnPair a b (d :: rest) with
      | [] => [[c]]
      | p :: ps => (c :: p) :: ps

/-- Value of a digit string read most-significant-first. -/
def parseNatVal (l : List Char) : ℕ :=
  l.foldl (fun acc c => 10 * acc + charToDigit c) 0

/-- Modelled from the spec: converting a piece of text to a non-negative
integer, failing on an empty or non-digit string (int() in the round-trip
test harness, which is not part of the repository source). -/
def parseNatOpt (l : List Char) : Option ℕ :=
  if l = [] then none
  else if l.all Char.isDigit then some (parseNatVal l) else none

/-- Modelled from the spec: converting one comma-separated piece to an
integer, allowing a leading minus sign (int() in the round-trip test
harness, which is not part of the repository source). -/
def parsePiece (l : List Char) : Option ℤ :=
  if l.head? = some '-' then (parseNatOpt l.tail).map (fun n => -(n : ℤ))
  else (parseNatOpt l).map (fun n => (n : ℤ))

/-- Modelled from the spec: converting every piece, failing if any piece
fails. -/
def parseAll : List (List Char) → Option (List ℤ)
  | [] => some []
  | p :: ps =>
    match parsePiece p, parseAll ps with
    | some v, some vs => some (v :: vs)
    | _, _ => none

/-- Modelled from the spec: split the values-only output line on the
comma-space separator and convert each piece to an integer. -/
def parseValuesLine (s : List Char) : Option (List ℤ) :=
  parseAll (splitOnPair ',' ' ' s)

/-- First character of a C++ identifier: a letter or an underscore,
matching the character class at the start of both validation patterns. -/
def isIdentStart (c : Char) : Bool := c.isAlpha || c = '_'

/-- Subsequent character of a C++ identifier: a letter, a digit or an
underscore. -/
def isIdentChar (c : Char) : Bool := c.isAlphanum || c = '_'

/-- Language of regex_cpp_identifier: a letter or underscore followed by
letters, digits or underscores. -/
def matchesCppVarIdent (l : List Char) : Bool :=
  match l with
  | [] => false
  | c :: rest => isIdentStart c && rest.all isIdentChar

/-- Drop one leading scope separator if present. -/
def stripScope (l : List Char) : List Char :=
  match l with
  | ':' :: ':' :: rest => rest
  | _ => l

/-- Language of regex_cpp_identifier_with_scope, one or more groups each an
optional double-colon followed by an identifier.  Because two adjacent
identifier groups merge into one identifier, that language is exactly: an
optional leading double-colon, then identifiers separated by double-colons.
A piece holding a stray colon (as in blah::::foo) fails the per-piece
identifier check, just as the regex rejects it. -/
def matchesCppTypeIdent (l : List Char) : Bool :=
  (splitOnPair ':' ':' (stripScope l)).all matchesCppVarIdent

/-- Command-line configuration, one field per argparse argument. -/
structure Config where
  length : ℤ
  dataType : List Char
  name : List Char
  amplitude : ℝ
  frequency : ℝ
  phase : ℝ
  shift : ℝ
  lowerCutoff : ℤ
  upperCutoff : ℤ
  wrap : ℤ
  valuesOnly : Bool

/-- Rounding to the nearest integer with ties to even, the behaviour of
round() on a Python float. -/
noncomputable def pyRound (x : ℝ) : ℤ :=
  if Int.fract x = 1 / 2 then (if Even ⌊x⌋ then ⌊x⌋ else ⌊x⌋ + 1)
  else round x

/-- Angle for one table index: a single cycle of two pi radians spread
evenly across the lookup table. -/
noncomputable def xAngle (cfg : Config) (i : ℕ) : ℝ :=
  ((i : ℝ) / (cfg.length : ℝ)) * 2 * Real.pi

/-- Sine-wave value for one table index. -/
noncomputable def sampleY (cfg : Config) (i : ℕ) : ℝ :=
  cfg.amplitude * Real.sin (cfg.frequency * (xAngle cfg i - cfg.phase)) + cfg.shift

/-- Constrain a value to the closed cutoff range, as
max(lower, min(upper, v)) does. -/
def constrain (lo hi v : ℤ) : ℤ := max lo (min hi v)

/-- Rounded and constrained lookup-table entry for one index. -/
noncomputable def lutEntry (cfg : Config) (i : ℕ) : ℤ :=
  constrain cfg.lowerCutoff cfg.upperCutoff (pyRound (sampleY cfg i))

/-- The generated lookup table: one entry per index of range(length),
which is empty when the length is zero or negative. -/
noncomputable def lut (cfg : Config) : List ℤ :=
  (List.range cfg.length.toNat).map (lutEntry cfg)

/-- The single line of the values-only loop before its closing newline. -/
def valuesLine (l : List ℤ) : List Char :=
  joinSep sepCS (l.map intChars)

/-- Complete values-only standard output: the line plus the final
newline printed by the trailing empty print call. -/
def valuesOutput (l : List ℤ) : List Char :=
  valuesLine l ++ ['\n']

/-- Line break plus the two-space indent printed at each wrap point. -/
def breakIndent : List Char := ['\n', ' ', ' ']

/-- Text printed by one iteration of the declaration loop: the separator
when the index is positive, then the wrap break when wrapping is enabled
and the index is a multiple of the wrap width, then the value. -/
def declItem (wrap : ℤ) (l : List ℤ) (i : ℕ) : List Char :=
  (if 0 < i then sepCS else []) ++
  (if 0 < wrap ∧ (i : ℤ) % wrap = 0 then breakIndent else []) ++
  intChars (l.getD i 0)

/-- Text printed by the whole declaration loop, accumulated left to
right as the prints execute. -/
def declItems (wrap : ℤ) (l : List ℤ) : List Char :=
  (List.range l.length).foldl (fun acc i => acc ++ declItem wrap l i) []

/-- Complete declaration-mode standard output: the length-constant line,
the opening of the array declaration, the loop output, the trailing line
break when wrapping is enabled, and the closing line. -/
def declOutput (cfg : Config) (l : List ℤ) : List Char :=
  "const int ".data ++ cfg.name ++ "_LENGTH\x7b ".data ++ intChars cfg.length
    ++ " \x7d;\n".data
  ++ "const ".data ++ cfg.dataType ++ " ".data ++ cfg.name ++ "\x7b ".data
  ++ declItems cfg.wrap l
  ++ (if 0 < cfg.wrap then ['\n'] else [])
  ++ "\x7d;\n".data

/-- Message of the ValueError raised for an invalid data type. -/
def dataTypeErr : String := "--data-type musdt specify a valid C++ type identifier."

/-- Message of the ValueError raised for an invalid array name. -/
def nameErr : String := "--name must specify a valid C++ variable name."

/-- Message of the ValueError raised for inverted cutoffs. -/
def cutoffErr : String := "--lower-cutoff must not be greater than --upper-cutoff."

/-- The whole program on a parsed configuration: the identifier checks
(skipped in values-only mode), the cutoff check, then table generation and
one of the two renderings.  An error value stands for the raised
ValueError: non-zero exit with nothing written to standard output. -/
noncomputable def runProgram (cfg : Config) : Except String (List Char) :=
  if cfg.valuesOnly = false ∧ matchesCppTypeIdent cfg.dataType = false then
    Except.error dataTypeErr
  else if cfg.valuesOnly = false ∧ matchesCppVarIdent cfg.name = false then
    Except.error nameErr
  else if cfg.lowerCutoff > cfg.upperCutoff then
    Except.error cutoffErr
  else if cfg.valuesOnly then Except.ok (valuesOutput (lut cfg))
  else Except.ok (declOutput cfg (lut cfg))

/-- Concrete configuration of the quarter-cycle scenario: length four,
default amplitude, frequency, phase, shift and cutoffs, values-only. -/
noncomputable def cfgScenario4 : Config :=
  { length := 4, dataType := "byte".data, name := "BRIGHTNESS_LUT".data,
    amplitude := 255, frequency := 1, phase := 0, shift := 0,
    lowerCutoff := 0, upperCutoff := 255, wrap := 20, valuesOnly := true }

/-- Concrete configuration with a zero length, values-only, otherwise
default. -/
noncomputable def cfgZero : Config :=
  { length := 0, dataType := "byte".data, name := "BRIGHTNESS_LUT".data,
    amplitude := 255, frequency := 1, phase := 0, shift := 0,
    lowerCutoff := 0, upperCutoff := 255, wrap := 20, valuesOnly := true }

lemma lut_length_eq (cfg : Config) : (lut cfg).length = cfg.length.toNat := by
  simp [lut]

lemma lut_getD (cfg : Config) (i : ℕ) (hi : i < cfg.length.toNat) :
    (lut cfg).getD i 0 = lutEntry cfg i := by
  simp [lut, List.getD_eq_getElem?_getD, List.getElem?_map, List.getElem?_range, hi]

/-- C1: for every configuration passing validation (lower cutoff at most
upper cutoff) and every index below the length, the table entry lies
within the closed cutoff range. -/
theorem lut_entries_within_cutoffs (cfg : Config)
    (hcut : cfg.lowerCutoff ≤ cfg.upperCutoff) (i : ℕ)
    (hi : i < cfg.length.toNat) :
    cfg.lowerCutoff ≤ (lut cfg).getD i 0 ∧ (lut cfg).getD i 0 ≤ cfg.upperCutoff := by
  rw [lut_getD cfg i hi]
  unfold lutEntry constrain
  omega

/-- Witness for C1 at the quarter-cycle configuration and index zero. -/
theorem lut_entries_within_cutoffs_witness :
    cfgScenario4.lowerCutoff ≤ cfgScenario4.upperCutoff ∧
    0 < cfgScenario4.length.toNat ∧
    (cfgScenario4.lowerCutoff ≤ (lut cfgScenario4).getD 0 0 ∧
      (lut cfgScenario4).getD 0 0 ≤ cfgScenario4.upperCutoff) :=
  ⟨by decide, by decide,
    lut_entries_within_cutoffs cfgScenario4 (by decide) 0 (by decide)⟩

/-- C2: for every valid configuration with positive length and every index
below the length, the table entry is the clamped rounding of
amplitude * sin(frequency * (x - phase)) + shift at the angle
x = (i / length) * 2 pi, computed from the index alone. -/
theorem lut_entry_formula (cfg : Config)
    (hcut : cfg.lowerCutoff ≤ cfg.upperCutoff) (hlen : 0 < cfg.length)
    (i : ℕ) (hi : i < cfg.length.toNat) :
    (lut cfg).getD i 0 =
      constrain cfg.lowerCutoff cfg.upperCutoff
        (pyRound (cfg.amplitude *
          Real.sin (cfg.frequency *
            (((i : ℝ) / (cfg.length : ℝ)) * (2 * Real.pi) - cfg.phase)) +
          cfg.shift)) := by
  rw [lut_getD cfg i hi]
  unfold lutEntry sampleY xAngle
  rw [mul_assoc]

/-- Witness for C2 at the quarter-cycle configuration and index zero. -/
theorem lut_entry_formula_witness :
    cfgScenario4.lowerCutoff ≤ cfgScenario4.upperCutoff ∧
    0 < cfgScenario4.length ∧ 0 < cfgScenario4.length.toNat ∧
    (lut cfgScenario4).getD 0 0 =
      constrain cfgScenario4.lowerCutoff cfgScenario4.upperCutoff
        (pyRound (cfgScenario4.amplitude *
          Real.sin (cfgScenario4.frequency *
            (((0 : ℕ) : ℝ) / ((cfgScenario4.length : ℤ) : ℝ) * (2 * Real.pi) -
              cfgScenario4.phase)) +
          cfgScenario4.shift)) :=
  ⟨by decide, by decide, by decide,
    lut_entry_formula cfgScenario4 (by decide) (by decide) 0 (by decide)⟩

/-- C3: the sample sequence has exactly length entries when the length is
positive, and is empty when the length is zero or negative. -/
theorem lut_length_spec (cfg : Config) :
    (0 < cfg.length → ((lut cfg).length : ℤ) = cfg.length) ∧
    (cfg.length ≤ 0 → lut cfg = []) := by
  constructor
  · intro h
    rw [lut_length_eq]
    omega
  · intro h
    have hz : cfg.length.toNat = 0 := by omega
    simp [lut, hz]

/-- Witness for C3 at the quarter-cycle and zero-length configurations. -/
theorem lut_length_spec_witness :
    0 < cfgScenario4.length ∧ ((lut cfgScenario4).length : ℤ) = cfgScenario4.length ∧
    cfgZero.length ≤ 0 ∧ lut cfgZero = [] :=
  ⟨by decide, (lut_length_spec cfgScenario4).1 (by decide),
    by decide, (lut_length_spec cfgZero).2 (by decide)⟩

lemma lut_of_length_zero (cfg : Config) (h : cfg.length = 0) : lut cfg = [] := by
  simp [lut, h]

/-- C10: with a zero length and passing validation, the loop body with its
division by the length never runs; in values-only mode the program
terminates normally writing exactly one newline. -/
theorem zero_length_values_only (cfg : Config) (hlen : cfg.length = 0)
    (hv : cfg.valuesOnly = true) (hcut : cfg.lowerCutoff ≤ cfg.upperCutoff) :
    runProgram cfg = Except.ok ['\n'] := by
  have hl : lut cfg = [] := lut_of_length_zero cfg hlen
  unfold runProgram
  rw [hv, hl]
  rw [if_neg (by simp), if_neg (by simp), if_neg (by omega), if_pos rfl]
  rfl

/-- Witness for C10 at the zero-length configuration. -/
theorem zero_length_values_only_witness :
    cfgZero.length = 0 ∧ cfgZero.valuesOnly = true ∧
    cfgZero.lowerCutoff ≤ cfgZero.upperCutoff ∧
    runProgram cfgZero = Except.ok ['\n'] :=
  ⟨rfl, rfl, by decide, zero_length_values_only cfgZero rfl rfl (by decide)⟩

/-- Concrete configuration with inverted cutoffs, declaration mode. -/
noncomputable def cfgInverted : Config :=
  { length := 8, dataType := "byte".data, name := "BRIGHTNESS_LUT".data,
    amplitude := 255, frequency := 1, phase := 0, shift := 0,
    lowerCutoff := 10, upperCutoff := 5, wrap := 20, valuesOnly := false }

/-- Concrete configuration with an invalid data type, declaration mode. -/
noncomputable def cfgBadTypeDecl : Config :=
  { length := 4, dataType := "1bad".data, name := "BRIGHTNESS_LUT".data,
    amplitude := 255, frequency := 1, phase := 0, shift := 0,
    lowerCutoff := 0, upperCutoff := 255, wrap := 20, valuesOnly := false }

/-- Concrete configuration with an invalid data type, values-only mode. -/
noncomputable def cfgBadTypeValues : Config :=
  { length := 4, dataType := "1bad".data, name := "BRIGHTNESS_LUT".data,
    amplitude := 255, frequency := 1, phase := 0, shift := 0,
    lowerCutoff := 0, upperCutoff := 255, wrap := 20, valuesOnly := true }

/-- C5: whenever the lower cutoff exceeds the upper cutoff the program
raises a validation error, so it exits with non-zero status and writes
nothing to standard output, in either mode. -/
theorem inverted_cutoffs_fail (cfg : Config)
    (h : cfg.lowerCutoff > cfg.upperCutoff) :
    ∃ e, runProgram cfg = Except.error e := by
  unfold runProgram
  by_cases h1 : cfg.valuesOnly = false ∧ matchesCppTypeIdent cfg.dataType = false
  · rw [if_pos h1]
    exact ⟨_, rfl⟩
  · rw [if_neg h1]
    by_cases h2 : cfg.valuesOnly = false ∧ matchesCppVarIdent cfg.name = false
    · rw [if_pos h2]
      exact ⟨_, rfl⟩
    · rw [if_neg h2, if_pos h]
      exact ⟨_, rfl⟩

/-- Witness for C5 at the inverted-cutoff configuration. -/
theorem inverted_cutoffs_fail_witness :
    cfgInverted.lowerCutoff > cfgInverted.upperCutoff ∧
    ∃ e, runProgram cfgInverted = Except.error e :=
  ⟨by decide, inverted_cutoffs_fail cfgInverted (by decide)⟩

/-- C6: the identifier checks run only outside values-only mode: with the
data type 1bad, declaration mode raises the data-type validation error,
while values-only mode accepts the same value and produces output. -/
theorem dataType_checked_only_in_decl_mode (cfg : Config)
    (hdt : cfg.dataType = "1bad".data) :
    (cfg.valuesOnly = false → runProgram cfg = Except.error dataTypeErr) ∧
    (cfg.valuesOnly = true → cfg.lowerCutoff ≤ cfg.upperCutoff →
      ∃ out, runProgram cfg = Except.ok out) := by
  constructor
  · intro hv
    unfold runProgram
    rw [if_pos ⟨hv, by rw [hdt]; decide⟩]
  · intro hv hcut
    unfold runProgram
    rw [hv]
    rw [if_neg (by simp), if_neg (by simp), if_neg (by omega), if_pos rfl]
    exact ⟨_, rfl⟩

/-- Witness for C6 at the two invalid-data-type configurations. -/
theorem dataType_checked_only_in_decl_mode_witness :
    runProgram cfgBadTypeDecl = Except.error dataTypeErr ∧
    ∃ out, runProgram cfgBadTypeValues = Except.ok out :=
  ⟨(dataType_checked_only_in_decl_mode cfgBadTypeDecl rfl).1 rfl,
    (dataType_checked_only_in_decl_mode cfgBadTypeValues rfl).2 rfl (by decide)⟩

lemma pyRound_intCast (n : ℤ) : pyRound ((n : ℤ) : ℝ) = n := by
  unfold pyRound
  rw [Int.fract_intCast, if_neg (by norm_num), round_intCast]

lemma sampleY_s4 (i : ℕ) :
    sampleY cfgScenario4 i = 255 * Real.sin ((i : ℝ) / 4 * 2 * Real.pi) := by
  simp [sampleY, xAngle, cfgScenario4]

lemma lutEntry_s4_0 : lutEntry cfgScenario4 0 = 0 := by
  have hy : sampleY cfgScenario4 0 = 0 := by
    rw [sampleY_s4]
    norm_num
  unfold lutEntry
  rw [hy, show (0 : ℝ) = ((0 : ℤ) : ℝ) by norm_num, pyRound_intCast]
  decide

lemma lutEntry_s4_1 : lutEntry cfgScenario4 1 = 255 := by
  have hy : sampleY cfgScenario4 1 = 255 := by
    rw [sampleY_s4]
    rw [show ((1 : ℕ) : ℝ) / 4 * 2 * Real.pi = Real.pi / 2 by push_cast; ring]
    rw [Real.sin_pi_div_two]
    norm_num
  unfold lutEntry
  rw [hy, show (255 : ℝ) = ((255 : ℤ) : ℝ) by norm_num, pyRound_intCast]
  decide

lemma lutEntry_s4_2 : lutEntry cfgScenario4 2 = 0 := by
  have hy : sampleY cfgScenario4 2 = 0 := by
    rw [sampleY_s4]
    rw [show ((2 : ℕ) : ℝ) / 4 * 2 * Real.pi = Real.pi by push_cast; ring]
    rw [Real.sin_pi]
    norm_num
  unfold lutEntry
  rw [hy, show (0 : ℝ) = ((0 : ℤ) : ℝ) by norm_num, pyRound_intCast]
  decide

lemma lutEntry_s4_3 : lutEntry cfgScenario4 3 = 0 := by
  have hy : sampleY cfgScenario4 3 = -255 := by
    rw [sampleY_s4]
    rw [show ((3 : ℕ) : ℝ) / 4 * 2 * Real.pi = Real.pi + Real.pi / 2 by push_cast; ring]
    rw [Real.sin_add_pi_div_two, Real.cos_pi]
    norm_num
  unfold lutEntry
  rw [hy, show (-255 : ℝ) = ((-255 : ℤ) : ℝ) by norm_num, pyRound_intCast]
  decide

lemma lut_s4 : lut cfgScenario4 = [0, 255, 0, 0] := by
  unfold lut
  rw [show cfgScenario4.length.toNat = 4 from rfl,
    show List.range 4 = [0, 1, 2, 3] from rfl]
  simp [lutEntry_s4_0, lutEntry_s4_1, lutEntry_s4_2, lutEntry_s4_3]

/-- C7: with length four, amplitude 255, frequency one, phase and shift
zero, default cutoffs and values-only mode, the samples sit at the
quarter-cycle points and the emitted line is the literal 0, 255, 0, 0. -/
theorem quarter_cycle_scenario :
    runProgram cfgScenario4 = Except.ok ("0, 255, 0, 0\n").data := by
  unfold runProgram
  rw [if_neg (by simp [cfgScenario4]), if_neg (by simp [cfgScenario4]),
    if_neg (by decide), if_pos (show cfgScenario4.valuesOnly = true from rfl)]
  rw [lut_s4]
  rfl

/-- Concrete configuration of the declaration scenario: length three,
no wrapping, array name LUT, data type int. -/
noncomputable def cfgDecl3 : Config :=
  { length := 3, dataType := "int".data, name := "LUT".data,
    amplitude := 255, frequency := 1, phase := 0, shift := 0,
    lowerCutoff := 0, upperCutoff := 255, wrap := 0, valuesOnly := false }

/-- C9: in declaration mode with length three, no wrapping, name LUT and
data type int, the output is the length-constant line followed by the
array line holding the three values after the opening brace, separated by
comma-space, with no wrapping break, no indentation and no space before
the closing brace. -/
theorem decl_nowrap_scenario (cfg : Config)
    (hlen : cfg.length = 3) (hwrap : cfg.wrap = 0)
    (hname : cfg.name = "LUT".data) (hdt : cfg.dataType = "int".data)
    (hv : cfg.valuesOnly = false) (hcut : cfg.lowerCutoff ≤ cfg.upperCutoff) :
    runProgram cfg = Except.ok
      ("const int LUT_LENGTH\x7b 3 \x7d;\nconst int LUT\x7b ".data
        ++ intChars ((lut cfg).getD 0 0) ++ sepCS
        ++ intChars ((lut cfg).getD 1 0) ++ sepCS
        ++ intChars ((lut cfg).getD 2 0) ++ "\x7d;\n".data) := by
  have ht : matchesCppTypeIdent cfg.dataType = true := by
    rw [hdt]
    decide
  have hn : matchesCppVarIdent cfg.name = true := by
    rw [hname]
    decide
  have h3 : (lut cfg).length = 3 := by
    rw [lut_length_eq, hlen]
    rfl
  have hitems : declItems cfg.wrap (lut cfg) =
      intChars ((lut cfg).getD 0 0) ++ sepCS
        ++ intChars ((lut cfg).getD 1 0) ++ sepCS
        ++ intChars ((lut cfg).getD 2 0) := by
    unfold declItems
    rw [h3, hwrap, show List.range 3 = [0, 1, 2] from rfl]
    simp [declItem, sepCS]
  unfold runProgram
  rw [if_neg (by simp [ht]), if_neg (by simp [hn]), if_neg (by omega),
    if_neg (by simp [hv])]
  unfold declOutput
  rw [hitems, hname, hdt, hlen, hwrap, if_neg (by omega)]
  simp [sepCS, show intChars 3 = ['3'] from rfl]

/-- Witness for C9 at the concrete declaration-scenario configuration. -/
theorem decl_nowrap_scenario_witness :
    runProgram cfgDecl3 = Except.ok
      ("const int LUT_LENGTH\x7b 3 \x7d;\nconst int LUT\x7b ".data
        ++ intChars ((lut cfgDecl3).getD 0 0) ++ sepCS
        ++ intChars ((lut cfgDecl3).getD 1 0) ++ sepCS
        ++ intChars ((lut cfgDecl3).getD 2 0) ++ "\x7d;\n".data) :=
  decl_nowrap_scenario cfgDecl3 rfl rfl rfl rfl rfl (by decide)

lemma foldl_append_eq_flatten {α β : Type} (f : β → List α) :
    ∀ (is : List β) (acc : List α),
      is.foldl (fun a i => a ++ f i) acc = acc ++ (is.map f).flatten := by
  intro is
  induction is with
  | nil => intro acc; simp
  | cons i is ih => intro acc; simp [ih, List.append_assoc]

lemma declItems_eq_flatten (wrap : ℤ) (l : List ℤ) :
    declItems wrap l = ((List.range l.length).map (declItem wrap l)).flatten := by
  unfold declItems
  rw [foldl_append_eq_flatten]
  rfl

/-- Per-index text of the declaration loop in the words of the spec: the
comma-space separator for every index after the first, then, before every
index that is a multiple of the wrap width (including index zero), a
newline followed by a two-space indent, then the value. -/
def declItemSpec (wrap : ℤ) (l : List ℤ) (i : ℕ) : List Char :=
  (if i ≠ 0 then sepCS else []) ++
  (if (i : ℤ) % wrap = 0 then breakIndent else []) ++
  intChars (l.getD i 0)

lemma declItem_eq_spec (wrap : ℤ) (hw : 0 < wrap) (l : List ℤ) (i : ℕ) :
    declItem wrap l i = declItemSpec wrap l i := by
  unfold declItem declItemSpec
  by_cases h : i = 0
  · simp [h, hw]
  · simp [h, Nat.pos_of_ne_zero h, hw]

/-- C8: in declaration mode with a positive wrap width, the emitted array
body is, for each index, the comma-space separator (for indices after the
first) followed, at every index that is a multiple of the wrap width
(including index zero), by a newline and a two-space indent before the
value — so the first value starts a fresh indented line after the opening
brace and each separator precedes the wrap break — and a trailing newline
is emitted after the last value before the closing brace line. -/
theorem decl_wrap_structure (cfg : Config)
    (hwrap : 0 < cfg.wrap) (hv : cfg.valuesOnly = false)
    (ht : matchesCppTypeIdent cfg.dataType = true)
    (hn : matchesCppVarIdent cfg.name = true)
    (hcut : cfg.lowerCutoff ≤ cfg.upperCutoff) :
    runProgram cfg = Except.ok
      ("const int ".data ++ cfg.name ++ "_LENGTH\x7b ".data ++ intChars cfg.length
        ++ " \x7d;\n".data
        ++ "const ".data ++ cfg.dataType ++ " ".data ++ cfg.name ++ "\x7b ".data
        ++ ((List.range (lut cfg).length).map (declItemSpec cfg.wrap (lut cfg))).flatten
        ++ ['\n'] ++ "\x7d;\n".data) := by
  unfold runProgram
  rw [if_neg (by simp [ht]), if_neg (by simp [hn]), if_neg (by omega),
    if_neg (by simp [hv])]
  unfold declOutput
  rw [declItems_eq_flatten, if_pos hwrap]
  rw [show declItem cfg.wrap (lut cfg) = declItemSpec cfg.wrap (lut cfg) from
    funext (declItem_eq_spec cfg.wrap hwrap (lut cfg))]

/-- Concrete configuration in declaration mode with wrapping enabled. -/
noncomputable def cfgDeclWrap : Config :=
  { length := 3, dataType := "byte".data, name := "BRIGHTNESS_LUT".data,
    amplitude := 255, frequency := 1, phase := 0, shift := 0,
    lowerCutoff := 0, upperCutoff := 255, wrap := 2, valuesOnly := false }

/-- Witness for C8 at a wrapping declaration-mode configuration. -/
theorem decl_wrap_structure_witness :
    runProgram cfgDeclWrap = Except.ok
      ("const int ".data ++ cfgDeclWrap.name ++ "_LENGTH\x7b ".data
        ++ intChars cfgDeclWrap.length ++ " \x7d;\n".data
        ++ "const ".data ++ cfgDeclWrap.dataType ++ " ".data ++ cfgDeclWrap.name
        ++ "\x7b ".data
        ++ ((List.range (lut cfgDeclWrap).length).map
              (declItemSpec cfgDeclWrap.wrap (lut cfgDeclWrap))).flatten
        ++ ['\n'] ++ "\x7d;\n".data) :=
  decl_wrap_structure cfgDeclWrap (by decide) rfl (by decide) (by decide) (by decide)

lemma digitToChar_isDigit (d : ℕ) (h : d < 10) : (digitToChar d).isDigit = true := by
  interval_cases d <;> decide

lemma charToDigit_digitToChar (d : ℕ) (h : d < 10) :
    charToDigit (digitToChar d) = d := by
  interval_cases d <;> decide

lemma natCharsAux_all_digits :
    ∀ fuel n, (natCharsAux fuel n).all Char.isDigit = true := by
  intro fuel
  induction fuel with
  | zero => intro n; rfl
  | succ fuel ih =>
    intro n
    unfold natCharsAux
    by_cases h : n < 10
    · simp [h, digitToChar_isDigit n h]
    · have h10 : n % 10 < 10 := Nat.mod_lt _ (by norm_num)
      simp [h, List.all_append, ih (n / 10), digitToChar_isDigit (n % 10) h10]

lemma natCharsAux_ne_nil (fuel n : ℕ) (h : n < fuel) : natCharsAux fuel n ≠ [] := by
  cases fuel with
  | zero => omega
  | succ fuel =>
    unfold natCharsAux
    by_cases h10 : n < 10 <;> simp [h10]

lemma parseNatVal_append (l : List Char) (c : Char) :
    parseNatVal (l ++ [c]) = 10 * parseNatVal l + charToDigit c := by
  simp [parseNatVal, List.foldl_append]

lemma parseNatVal_natCharsAux :
    ∀ fuel n, n < fuel → parseNatVal (natCharsAux fuel n) = n := by
  intro fuel
  induction fuel with
  | zero => intro n h; omega
  | succ fuel ih =>
    intro n h
    unfold natCharsAux
    by_cases h10 : n < 10
    · simp [h10, parseNatVal, charToDigit_digitToChar n h10]
    · rw [if_neg h10]
      have hdiv : n / 10 < fuel := by
        have := Nat.div_lt_self (show 0 < n by omega) (show 1 < 10 by norm_num)
        omega
      rw [parseNatVal_append, ih (n / 10) hdiv,
        charToDigit_digitToChar (n % 10) (Nat.mod_lt _ (by norm_num))]
      omega

lemma natChars_all_digits (n : ℕ) : (natChars n).all Char.isDigit = true :=
  natCharsAux_all_digits (n + 1) n

lemma natChars_ne_nil (n : ℕ) : natChars n ≠ [] :=
  natCharsAux_ne_nil (n + 1) n (Nat.lt_succ_self n)

lemma parseNatVal_natChars (n : ℕ) : parseNatVal (natChars n) = n :=
  parseNatVal_natCharsAux (n + 1) n (Nat.lt_succ_self n)

lemma parseNatOpt_natChars (n : ℕ) : parseNatOpt (natChars n) = some n := by
  unfold parseNatOpt
  rw [if_neg (natChars_ne_nil n), if_pos (natChars_all_digits n),
    parseNatVal_natChars]

lemma parsePiece_intChars (v : ℤ) : parsePiece (intChars v) = some v := by
  by_cases hv : v < 0
  · have h0 : (0 : ℤ) ≤ -v := by omega
    rw [intChars, if_pos hv]
    unfold parsePiece
    rw [if_pos (by simp), List.tail_cons, parseNatOpt_natChars]
    simp [Int.toNat_of_nonneg h0]
  · have h0 : (0 : ℤ) ≤ v := by omega
    rw [intChars, if_neg hv]
    cases hnc : natChars v.toNat with
    | nil => exact absurd hnc (natChars_ne_nil _)
    | cons c cs =>
      have hdig : c.isDigit = true := by
        have hall := natChars_all_digits v.toNat
        rw [hnc] at hall
        simp [List.all_cons] at hall
        exact hall.1
      have hcdash : c ≠ '-' := by
        intro hh
        rw [hh] at hdig
        exact absurd hdig (by decide)
      unfold parsePiece
      rw [if_neg (by simp [hcdash])]
      rw [← hnc, parseNatOpt_natChars]
      simp [Int.toNat_of_nonneg h0]

lemma intChars_no_comma (v : ℤ) : ',' ∉ intChars v := by
  have hdig : ∀ n : ℕ, ',' ∉ natChars n := by
    intro n hmem
    have hall := natChars_all_digits n
    rw [List.all_eq_true] at hall
    exact absurd (hall _ hmem) (by decide)
  unfold intChars
  by_cases hv : v < 0
  · rw [if_pos hv]
    intro hmem
    rcases List.mem_cons.mp hmem with h | h
    · exact absurd h (by decide)
    · exact hdig _ h
  · rw [if_neg hv]
    exact hdig _

lemma splitOnPair_cons_sep (a b : Char) (t : List Char) :
    splitOnPair a b (a :: b :: t) = [] :: splitOnPair a b t := by
  simp [splitOnPair]

lemma splitOnPair_cons_of_eq (a b c : Char) (t p : List Char)
    (ps : List (List Char)) (hc : c ≠ a) (hne : t ≠ [])
    (h : splitOnPair a b t = p :: ps) :
    splitOnPair a b (c :: t) = (c :: p) :: ps := by
  cases t with
  | nil => exact absurd rfl hne
  | cons d ds =>
    have hcond : ¬(c = a ∧ d = b) := fun hh => hc hh.1
    simp only [splitOnPair, if_neg hcond, h]

lemma splitOnPair_no_sep (a b : Char) :
    ∀ p : List Char, a ∉ p → splitOnPair a b p = [p] := by
  intro p
  induction p with
  | nil => intro _; rfl
  | cons c cs ih =>
    intro hp
    have hca : c ≠ a := fun h => hp (h ▸ List.mem_cons_self c cs)
    have hcs : a ∉ cs := fun h => hp (List.mem_cons_of_mem c h)
    cases cs with
    | nil => rfl
    | cons d ds =>
      exact splitOnPair_cons_of_eq a b c (d :: ds) _ _ hca (by simp) (ih hcs)

lemma splitOnPair_append_sep (a b : Char) :
    ∀ p t : List Char, a ∉ p →
      splitOnPair a b (p ++ a :: b :: t) = p :: splitOnPair a b t := by
  intro p
  induction p with
  | nil =>
    intro t _
    exact splitOnPair_cons_sep a b t
  | cons c cs ih =>
    intro t hp
    have hca : c ≠ a := fun h => hp (h ▸ List.mem_cons_self c cs)
    have hcs : a ∉ cs := fun h => hp (List.mem_cons_of_mem c h)
    rw [List.cons_append]
    exact splitOnPair_cons_of_eq a b c (cs ++ a :: b :: t) cs (splitOnPair a b t)
      hca (by simp) (ih t hcs)

lemma splitOnPair_joinSep (a b : Char) :
    ∀ ps : List (List Char), ps ≠ [] → (∀ p ∈ ps, a ∉ p) →
      splitOnPair a b (joinSep [a, b] ps) = ps := by
  intro ps
  induction ps with
  | nil => intro h _; exact absurd rfl h
  | cons p qs ih =>
    intro _ hmem
    cases qs with
    | nil => exact splitOnPair_no_sep a b p (hmem p (by simp))
    | cons q rs =>
      have hj : joinSep [a, b] (p :: q :: rs) =
          p ++ a :: b :: joinSep [a, b] (q :: rs) := by
        simp [joinSep]
      rw [hj, splitOnPair_append_sep a b p _ (hmem p (by simp)),
        ih (by simp) (fun x hx => hmem x (by simp [hx]))]

lemma parseAll_map_intChars (l : List ℤ) : parseAll (l.map intChars) = some l := by
  induction l with
  | nil => rfl
  | cons v vs ih => simp [parseAll, parsePiece_intChars, ih]

/-- C4: for every valid configuration with a positive length, splitting the
values-only output line on the comma-space separator and converting each
piece to an integer reproduces the sample sequence exactly. -/
theorem values_roundtrip (cfg : Config)
    (hcut : cfg.lowerCutoff ≤ cfg.upperCutoff) (hlen : 0 < cfg.length) :
    parseValuesLine (valuesLine (lut cfg)) = some (lut cfg) := by
  have hne : (lut cfg).map intChars ≠ [] := by
    intro h
    have hlen0 : (lut cfg).length = 0 := by simpa using congrArg List.length h
    rw [lut_length_eq] at hlen0
    omega
  unfold parseValuesLine valuesLine
  rw [show sepCS = [',', ' '] from rfl,
    splitOnPair_joinSep ',' ' ' ((lut cfg).map intChars) hne ?_,
    parseAll_map_intChars]
  intro p hp
  obtain ⟨v, _, rfl⟩ := List.mem_map.mp hp
  exact intChars_no_comma v

/-- Witness for C4 at the quarter-cycle configuration. -/
theorem values_roundtrip_witness :
    cfgScenario4.lowerCutoff ≤ cfgScenario4.upperCutoff ∧
    0 < cfgScenario4.length ∧
    parseValuesLine (valuesLine (lut cfgScenario4)) = some (lut cfgScenario4) :=
  ⟨by decide, by decide, values_roundtrip cfgScenario4 (by decide) (by decide)⟩

/-- Counterexample for C4 as stated: the zero-length configuration passes
validation and produces output, yet splitting its empty values line yields
one empty piece whose integer conversion fails, so the parse does not
reproduce the empty sample sequence. -/
theorem values_roundtrip_counterexample :
    (∃ out, runProgram cfgZero = Except.ok out) ∧
    parseValuesLine (valuesLine (lut cfgZero)) ≠ some (lut cfgZero) := by
  have hl : lut cfgZero = [] := lut_of_length_zero cfgZero rfl
  constructor
  · refine ⟨valuesOutput (lut cfgZero), ?_⟩
    unfold runProgram
    rw [if_neg (by simp [cfgZero]), if_neg (by simp [cfgZero]),
      if_neg (by decide), if_pos (show cfgZero.valuesOnly = true from rfl)]
  · rw [hl]
    decide
